import Mathlib

/-!
Verification development for the repoman repository lifecycle manager
(package `repoman`, Go sources under `internal/vault`, `internal/pristine`,
`internal/clone`, `internal/types`).

The Go code is shallowly embedded: Go strings become `List Char`, the
filesystem trees the managers touch (the vault index file, the
per-repository metadata files, the pristine directories, the clone
directories) become fields of an explicit state record `Sys`, and each
manager method becomes a Lean function on `Sys` returning the new state
together with an `Except` result mirroring the Go `error` return.

Modelling conventions, stated once:
* JSON (de)serialization of `vault.json` and `metadata.json` is modelled
  as faithful: a file's parsed contents are stored directly, so a present
  file is an `Option`-`some` of the structure it holds.  Corrupt-JSON and
  low-level I/O failures of reads/writes are outside the model; the
  distinction the code draws between a *missing* file and a present one
  is modelled exactly.
* `time.Now()` is modelled by a `now : Nat` field of the state.
* Paths are identified with the directory keys the managers derive them
  from (`filepath.Join(root, name)` becomes the key `name`); `filepath.Abs`
  is the identity (paths in the model are already absolute).
* The external git engine (the go-git library) is modelled by
  `plainCloneFrom` / `enginePlainClone` / `enginePull` /
  `engineListBranches`: a plain clone copies the source's objects into
  the new repository and writes an alternates pointer only when the
  `Shared` clone option is set; a remote requiring authentication rejects
  an operation whose options carry no `Auth` method.  Depth truncation of
  history is recorded by a `shallow` flag rather than by trimming the
  object list.
-/

/-- Go strings, embedded as character lists so that prefix/suffix/split
reasoning is decidable. -/
abbrev GoStr := List Char

/-- Literal helper: a Lean string literal viewed as a `GoStr`. -/
def gs (s : String) : GoStr := s.toList

/-- `strings.HasPrefix s pre`. -/
def goHasPrefix (s pre : GoStr) : Bool := pre.isPrefixOf s

/-- `strings.HasSuffix s suf`. -/
def goHasSuffix (s suf : GoStr) : Bool := suf.isSuffixOf s

/-- `strings.TrimSuffix s suf`: drop `suf` from the end when present. -/
def goTrimSuffix (s suf : GoStr) : GoStr :=
  if goHasSuffix s suf then s.take (s.length - suf.length) else s

/-- `strings.Contains s sub` (substring test). -/
def goContains (s sub : GoStr) : Bool := decide (sub <:+: s)

/-- `strings.Split s sep` for a one-character separator. -/
def goSplit (s : GoStr) (sep : Char) : List GoStr := s.splitOn sep

/-- Drop trailing path separators, as the loop at the start of
`filepath.Base` does. -/
def dropTrailingSep (s : GoStr) : GoStr :=
  (((s.reverse).dropWhile (fun c => c = '/'))).reverse

/-- The characters after the last `/` of `s` (all of `s` when it has no
slash). -/
def afterLastSlash (s : GoStr) : GoStr :=
  s.foldl (fun acc c => if c = '/' then [] else acc ++ [c]) []

/-- Go `filepath.Base` (Unix separator): empty path gives `"."`; trailing
slashes are stripped; the component after the last slash is returned,
or `"/"` when nothing remains. -/
def filepathBase (p : GoStr) : GoStr :=
  if p = [] then gs "." else
  let q := dropTrailingSep p
  let r := afterLastSlash q
  if r = [] then gs "/" else r

/-- Association-list lookup keyed by `GoStr`; models reading the directory
entry / file at key `k`. -/
def lookupA {α : Type} (k : GoStr) : List (GoStr × α) → Option α
  | [] => none
  | (k', v) :: rest => if k = k' then some v else lookupA k rest

/-- Association-list update: overwrite the entry at `k` or append one;
models writing the file / creating the directory at key `k`. -/
def setA {α : Type} (k : GoStr) (v : α) : List (GoStr × α) → List (GoStr × α)
  | [] => [(k, v)]
  | (k', v') :: rest => if k = k' then (k, v) :: rest else (k', v') :: setA k v rest

/-- Association-list removal of every entry at `k`; models
`os.RemoveAll` of the directory at key `k`. -/
def removeA {α : Type} (k : GoStr) (l : List (GoStr × α)) : List (GoStr × α) :=
  l.filter (fun e => decide (e.1 ≠ k))

/-- `types.VaultEntry`: one repository entry of the vault index
(`vault.json`).  `addedOn` is the `added_on` timestamp. -/
structure VaultEntry where
  name : GoStr
  url : GoStr
  addedOn : Nat := 0
deriving DecidableEq, Repr

/-- `types.SyncInfo` (`last_sync`): timestamp plus kind
(`"manual"` or `"auto"`; empty when never synced). -/
structure SyncInfo where
  timestamp : Nat := 0
  kind : GoStr := []
deriving DecidableEq, Repr

/-- `types.Clone`: one clone record inside a repository's metadata.
Named `CloneEntry` here because `Clone` names the clone operation. -/
structure CloneEntry where
  name : GoStr
  path : GoStr
  created : Nat := 0
deriving DecidableEq, Repr

/-- `types.BuildConfig`. -/
structure BuildConfig where
  buildCommand : GoStr := []
  installCommand : GoStr := []
  dependencies : List GoStr := []
deriving DecidableEq, Repr

/-- `types.HookConfig`. -/
structure HookConfig where
  preClone : GoStr := []
  postClone : GoStr := []
  preBuild : GoStr := []
  postBuild : GoStr := []
  preDestroy : GoStr := []
  postDestroy : GoStr := []
deriving DecidableEq, Repr

/-- `types.RepoMetadata`: the per-repository `metadata.json` document.
`kind`-style renames: none; field names follow the Go struct with Go's
`LastSync.Type` becoming `SyncInfo.kind`. -/
structure RepoMetadata where
  vaultURL : GoStr := []
  createdOn : Nat := 0
  lastUpdated : Nat := 0
  defaultBranch : GoStr := []
  currentBranchHash : GoStr := []
  cachedArtifactDir : GoStr := []
  clones : List CloneEntry := []
  readme : GoStr := []
  syncInterval : GoStr := []
  lastSync : SyncInfo := {}
  buildConfig : BuildConfig := {}
  hooks : HookConfig := {}
deriving DecidableEq, Repr

/-- The authentication method carried by go-git clone/fetch options.
The Go sources never construct one (no `Auth` field is ever set). -/
inductive AuthMethod where
  | sshKey (path : GoStr)
  | tokenEnv (envVar : GoStr)
  | defaultIdentity
deriving DecidableEq, Repr

/-- A git repository directory as the embedded engine sees it.
`alternates` is the object-sharing pointer
(`.git/objects/info/alternates`); `objects` the repository's own object
store; `shallow`/`singleBranch` record how it was cloned; `originURL`
the URL of its `origin` remote (empty = no origin remote);
`readmeFile` the contents of the first `README*` file of the working
tree, when one exists. -/
structure GitRepo where
  bare : Bool := false
  headBranch : GoStr := []
  headHash : GoStr := []
  branches : List (GoStr × GoStr) := []
  objects : List GoStr := []
  alternates : Option GoStr := none
  shallow : Bool := false
  singleBranch : Bool := false
  originURL : GoStr := []
  readmeFile : Option GoStr := none
deriving DecidableEq, Repr

/-- A remote repository reachable over the network: its content plus
whether it rejects anonymous (credential-less) access. -/
structure Remote where
  repo : GitRepo
  requiresAuth : Bool := false
deriving DecidableEq, Repr

/-- The go-git `CloneOptions` fields this codebase touches, plus the
`Shared` and `Auth` fields it never sets (kept to show they stay at
their zero values). `referenceHEAD` models `ReferenceName: plumbing.HEAD`. -/
structure CloneOptions where
  url : GoStr
  referenceHEAD : Bool := false
  singleBranch : Bool := false
  depth : Nat := 0
  shared : Bool := false
  auth : Option AuthMethod := none
deriving DecidableEq, Repr

/-- The git remotes configuration of the process's current working
directory, used only by `AddFromCurrentDir`.  `remotes` maps remote
name to its URL list; `branchRemote` is the remote tracked by the
current branch and `pushDefault` the configured push-default remote —
recorded because the specification claims they participate in remote
selection. -/
structure CurrentDirRepo where
  hasGitDir : Bool := false
  remotes : List (GoStr × List GoStr) := []
  branchRemote : Option GoStr := none
  pushDefault : Option GoStr := none
deriving DecidableEq, Repr

/-- Errors.  One constructor per distinct Go error-return site that the
claims distinguish; `fmt.Errorf` wrapping chains are flattened to the
innermost site. -/
inductive Err where
  /-- "URL or path cannot be empty" -/
  | emptyURLOrPath
  /-- "invalid git URL format" -/
  | invalidGitURL
  /-- "path does not exist: %s" -/
  | pathNotExist (p : GoStr)
  /-- "path is not a git repository: %s" -/
  | pathNotGitRepo (p : GoStr)
  /-- "could not extract repository name from URL: %s" -/
  | extractNameFailed (u : GoStr)
  /-- "repository '%s' already exists in vault" -/
  | duplicateRepository (name : GoStr)
  /-- "repository '%s' not found in vault" -/
  | notFoundInVault (name : GoStr)
  /-- "current directory is not a git repository" -/
  | cwdNotGitRepo
  /-- "no origin remote found" -/
  | noOriginRemote
  /-- "origin remote has no URLs" -/
  | originNoURLs
  /-- `os.ReadFile(vault.json)` failed: the vault index file is absent -/
  | vaultReadFailed
  /-- "pristine '%s' already exists" -/
  | pristineAlreadyExists (name : GoStr)
  /-- "pristine '%s' does not exist" -/
  | pristineNotExist (name : GoStr)
  /-- go-git: repository not found at the requested URL/path -/
  | repositoryNotFound (u : GoStr)
  /-- go-git: authentication required and no credential was offered -/
  | authenticationRequired
  /-- `git.PlainOpen` failed (directory holds no repository) -/
  | openRepoFailed (name : GoStr)
  /-- `repo.Worktree()` failed (bare repository) -/
  | noWorktree
  /-- pull failed (current branch missing on the remote) -/
  | pullFailed
  /-- "no default branch found" -/
  | noDefaultBranch
  /-- reading `metadata.json` for the repository failed (file absent) -/
  | metadataReadFailed (name : GoStr)
  /-- "clone '%s' already exists" -/
  | cloneAlreadyExists (name : GoStr)
  /-- "pristine '%s' does not exist, run 'repoman init %s' first" -/
  | pristineMissing (name : GoStr)
  /-- "target '%s' not found (not a clone or pristine)" -/
  | targetNotFound (name : GoStr)
  /-- "clone '%s' not found in any metadata" -/
  | cloneNotInMetadata (name : GoStr)
  /-- aggregate of a bulk operation: "some repositories failed ..."
  joining, per repository, "failed to init/sync %s: %v" -/
  | bulkFailures (fails : List (GoStr × Err))
deriving Repr

/-- The state every manager operates on: the clock, the vault index
file (`none` = file absent), the per-repository metadata files keyed by
canonical name, the pristine directories (`some none` entry = directory
present but holding no repository), the clone directories, the network
(remote URL to remote repository), the local directories visible to
`validateLocalPath` (value = whether a `.git` subdirectory exists), and
the current working directory's git configuration. -/
structure Sys where
  now : Nat := 0
  vaultFile : Option (List VaultEntry) := none
  metadataFiles : List (GoStr × RepoMetadata) := []
  pristines : List (GoStr × Option GitRepo) := []
  clones : List (GoStr × GitRepo) := []
  remotes : List (GoStr × Remote) := []
  localDirs : List (GoStr × Bool) := []
  cwd : CurrentDirRepo := {}
deriving Repr

/-- `vault.Manager.loadVault`: a missing `vault.json` yields the empty
vault rather than an error. -/
def Vault.loadVault (st : Sys) : List VaultEntry :=
  match st.vaultFile with
  | none => []
  | some v => v

/-- `vault.Manager.saveVault`. -/
def Vault.saveVault (st : Sys) (v : List VaultEntry) : Sys :=
  { st with vaultFile := some v }

/-- The loop of `vault.Manager.Get` / `repoExists`: first entry with the
given name. -/
def findRepo (name : GoStr) : List VaultEntry → Option VaultEntry
  | [] => none
  | e :: rest => if e.name = name then some e else findRepo name rest

/-- `vault.Manager.repoExists`. -/
def Vault.repoExists (v : List VaultEntry) (name : GoStr) : Bool :=
  (findRepo name v).isSome

/-- `vault.Manager.validateURL`: the regular expression
`^(https?://|git@).*\.git$`, rendered as: one of the three prefixes
matches and the remainder after it ends in `.git`. -/
def matchesPrefixDotGit (pre s : GoStr) : Bool :=
  goHasPrefix s pre && goHasSuffix (s.drop pre.length) (gs ".git")

/-- The full pattern `^(https?://|git@).*\.git$`. -/
def gitURLPatternMatch (s : GoStr) : Bool :=
  matchesPrefixDotGit (gs "http://") s || matchesPrefixDotGit (gs "https://") s ||
    matchesPrefixDotGit (gs "git@") s

/-- The URL-shape test of `validateURLOrPath` and `extractRepoName`:
`strings.HasPrefix` against `http://`, `https://`, `git@`. -/
def isURLShaped (s : GoStr) : Bool :=
  goHasPrefix s (gs "http://") || goHasPrefix s (gs "https://") || goHasPrefix s (gs "git@")

/-- `vault.Manager.validateURL`. -/
def Vault.validateURL (url : GoStr) : Except Err GoStr :=
  if gitURLPatternMatch url then .ok url else .error .invalidGitURL

/-- `vault.Manager.validateLocalPath`: `filepath.Abs` is the identity in
the model; the path must exist and contain a `.git` subdirectory. -/
def Vault.validateLocalPath (st : Sys) (p : GoStr) : Except Err GoStr :=
  match lookupA p st.localDirs with
  | none => .error (.pathNotExist p)
  | some hasGit => if hasGit then .ok p else .error (.pathNotGitRepo p)

/-- `vault.Manager.validateURLOrPath`. -/
def Vault.validateURLOrPath (st : Sys) (s : GoStr) : Except Err GoStr :=
  if s = [] then .error .emptyURLOrPath
  else if isURLShaped s then Vault.validateURL s
  else Vault.validateLocalPath st s

/-- `vault.Manager.extractNameFromURL`. -/
def Vault.extractNameFromURL (url0 : GoStr) : Except Err GoStr :=
  let url := goTrimSuffix url0 (gs ".git")
  let name :=
    if goContains url (gs "github.com") then
      let parts := goSplit url '/'
      if parts.length ≥ 2 then parts.getLastD [] else []
    else if goContains url (gs "git@") then
      let parts := goSplit url ':'
      if parts.length ≥ 2 then filepathBase (parts.getLastD []) else []
    else
      filepathBase url
  if name = [] then .error (.extractNameFailed url) else .ok name

/-- `vault.Manager.extractRepoName`. -/
def Vault.extractRepoName (urlOrPath : GoStr) : Except Err GoStr :=
  if isURLShaped urlOrPath then Vault.extractNameFromURL urlOrPath
  else .ok (filepathBase urlOrPath)

/-- `vault.Manager.createMetadata`: the freshly initialized
`metadata.json` document. -/
def Vault.freshMetadata (url : GoStr) (now : Nat) : RepoMetadata :=
  { vaultURL := url, createdOn := now, lastUpdated := now,
    defaultBranch := gs "main", currentBranchHash := [],
    cachedArtifactDir := [], clones := [], readme := [],
    syncInterval := gs "1h", lastSync := {}, buildConfig := {}, hooks := {} }

/-- `vault.Manager.createMetadata` (directory + file write). -/
def Vault.createMetadata (st : Sys) (name url : GoStr) : Sys :=
  { st with metadataFiles := setA name (Vault.freshMetadata url st.now) st.metadataFiles }

/-- `vault.Manager.Add`.  The Go method returns only `error`; the name it
resolves is reported through the success message, so the embedding
returns it in the `ok` case. -/
def Vault.Add (st : Sys) (urlOrPath : GoStr) : Sys × Except Err GoStr :=
  match Vault.validateURLOrPath st urlOrPath with
  | .error e => (st, .error e)
  | .ok url =>
    match Vault.extractRepoName url with
    | .error e => (st, .error e)
    | .ok name =>
      let vault := Vault.loadVault st
      if Vault.repoExists vault name then (st, .error (.duplicateRepository name))
      else
        let st2 := Vault.saveVault st (vault ++ [{ name := name, url := url, addedOn := st.now }])
        (Vault.createMetadata st2 name url, .ok name)

/-- `vault.Manager.getOriginRemote`: look up the remote literally named
`origin` in the current directory's repository and return its first
URL. -/
def Vault.getOriginRemote (c : CurrentDirRepo) : Except Err GoStr :=
  if ¬ c.hasGitDir then .error (.openRepoFailed (gs "."))
  else
    match lookupA (gs "origin") c.remotes with
    | none => .error .noOriginRemote
    | some urls =>
      match urls with
      | [] => .error .originNoURLs
      | u :: _ => .ok u

/-- `vault.Manager.AddFromCurrentDir`. -/
def Vault.AddFromCurrentDir (st : Sys) : Sys × Except Err GoStr :=
  if ¬ st.cwd.hasGitDir then (st, .error .cwdNotGitRepo)
  else
    match Vault.getOriginRemote st.cwd with
    | .error e => (st, .error e)
    | .ok url => Vault.Add st url

/-- `vault.Manager.List` (named `listRepos` because `List` is taken). -/
def Vault.listRepos (st : Sys) : Except Err (List VaultEntry) :=
  .ok (Vault.loadVault st)

/-- `vault.Manager.Get`. -/
def Vault.Get (st : Sys) (name : GoStr) : Except Err VaultEntry :=
  match findRepo name (Vault.loadVault st) with
  | some e => .ok e
  | none => .error (.notFoundInVault name)

/-- go-git `PlainClone` result content (external-library model): the new
repository checks out the source's HEAD, copies the source's objects
into its own store, and gets an alternates pointer only when the
`Shared` option is set; `SingleBranch` keeps only the HEAD branch;
`Depth ≠ 0` marks the clone shallow. -/
def plainCloneFrom (src : GitRepo) (opts : CloneOptions) (bare : Bool) : GitRepo :=
  { bare := bare,
    headBranch := src.headBranch,
    headHash := src.headHash,
    branches := if opts.singleBranch then [(src.headBranch, src.headHash)] else src.branches,
    objects := src.objects,
    alternates := if opts.shared then some opts.url else none,
    shallow := decide (opts.depth ≠ 0),
    singleBranch := opts.singleBranch,
    originURL := opts.url,
    readmeFile := if bare then none else src.readmeFile }

/-- go-git `PlainClone` from a network URL (external-library model): the
URL must name a known remote; a remote rejecting anonymous access fails
the operation when the options carry no `Auth` method — the options
hold no credential callback, so nothing is retried. -/
def enginePlainClone (st : Sys) (bare : Bool) (opts : CloneOptions) : Except Err GitRepo :=
  match lookupA opts.url st.remotes with
  | none => .error (.repositoryNotFound opts.url)
  | some r =>
    if r.requiresAuth && opts.auth.isNone then .error .authenticationRequired
    else .ok (plainCloneFrom r.repo opts bare)

/-- go-git `Worktree.Pull` with the zero `PullOptions{}` (external-library
model): fetch the current branch from `origin` and fast-forward to its
tip; the zero options carry no `Auth`, so a remote requiring
authentication rejects the pull. -/
def enginePull (st : Sys) (repo : GitRepo) : Except Err GitRepo :=
  match lookupA repo.originURL st.remotes with
  | none => .error (.repositoryNotFound repo.originURL)
  | some r =>
    if r.requiresAuth then .error .authenticationRequired
    else
      match lookupA repo.headBranch r.repo.branches with
      | none => .error .pullFailed
      | some tip =>
        .ok { repo with
          headHash := tip, objects := r.repo.objects,
          branches := setA repo.headBranch tip repo.branches }

/-- `pristine.RepoInfo`. -/
structure RepoInfo where
  defaultBranch : GoStr
  currentBranchHash : GoStr
  readme : GoStr
deriving DecidableEq, Repr

/-- The README truncation of `extractRepoInfo`: cut at 500 characters and
append an ellipsis. -/
def truncateReadme (r : GoStr) : GoStr :=
  if r.length > 500 then r.take 500 ++ gs "..." else r

/-- `pristine.Manager.extractRepoInfo`: open the repository at the
pristine directory, read HEAD's branch name and commit hash, and excerpt
a README file when one exists. -/
def Pristine.extractRepoInfo (st : Sys) (name : GoStr) : Except Err RepoInfo :=
  match lookupA name st.pristines with
  | some (some repo) =>
    .ok { defaultBranch := repo.headBranch,
          currentBranchHash := repo.headHash,
          readme := truncateReadme (repo.readmeFile.getD []) }
  | _ => .error (.openRepoFailed name)

/-- `pristine.Manager.loadRepoFromVault`: reads `vault.json` directly
(`os.ReadFile`), so a missing file is an error here — unlike
`vault.Manager.loadVault`. -/
def Pristine.loadRepoFromVault (st : Sys) (name : GoStr) : Except Err VaultEntry :=
  match st.vaultFile with
  | none => .error .vaultReadFailed
  | some repos =>
    match findRepo name repos with
    | some e => .ok e
    | none => .error (.notFoundInVault name)

/-- `pristine.Manager.loadAllReposFromVault`. -/
def Pristine.loadAllReposFromVault (st : Sys) : Except Err (List VaultEntry) :=
  match st.vaultFile with
  | none => .error .vaultReadFailed
  | some repos => .ok repos

/-- The `git.CloneOptions` literal built inside
`pristine.Manager.cloneAsReference`: URL, `ReferenceName: plumbing.HEAD`,
`SingleBranch: true`, `Depth: 1` — and nothing else (`Shared` and `Auth`
stay unset). -/
def refCloneOptions (url : GoStr) : CloneOptions :=
  { url := url, referenceHEAD := true, singleBranch := true, depth := 1 }

/-- `pristine.Manager.cloneAsReference`: `os.MkdirAll` creates the
pristine directory (left behind, empty, when the clone then fails), and
`git.PlainClone(path, false, …)` — second argument `false`: a non-bare
clone — populates it. -/
def Pristine.cloneAsReference (st : Sys) (url name : GoStr) : Sys × Except Err Unit :=
  let st1 := { st with pristines := setA name none st.pristines }
  match enginePlainClone st1 false (refCloneOptions url) with
  | .error e => (st1, .error e)
  | .ok repo => ({ st1 with pristines := setA name (some repo) st1.pristines }, .ok ())

/-- `pristine.Manager.updateMetadata`: read the repository's
`metadata.json`, update branch/hash/readme/`last_sync` (kind
`"manual"`), write it back. -/
def Pristine.updateMetadata (st : Sys) (name : GoStr) (info : RepoInfo) :
    Except Err (List (GoStr × RepoMetadata)) :=
  match lookupA name st.metadataFiles with
  | none => .error (.metadataReadFailed name)
  | some md =>
    .ok (setA name
      { md with
        lastUpdated := st.now, defaultBranch := info.defaultBranch,
        currentBranchHash := info.currentBranchHash, readme := info.readme,
        lastSync := { timestamp := st.now, kind := gs "manual" } }
      st.metadataFiles)

/-- `pristine.Manager.Init`. -/
def Pristine.Init (st : Sys) (name : GoStr) : Sys × Except Err Unit :=
  match Pristine.loadRepoFromVault st name with
  | .error e => (st, .error e)
  | .ok entry =>
    if (lookupA name st.pristines).isSome then (st, .error (.pristineAlreadyExists name))
    else
      match Pristine.cloneAsReference st entry.url name with
      | (st1, .error e) => (st1, .error e)
      | (st1, .ok ()) =>
        match Pristine.extractRepoInfo st1 name with
        | .error e => (st1, .error e)
        | .ok info =>
          match Pristine.updateMetadata st1 name info with
          | .error e => (st1, .error e)
          | .ok md => ({ st1 with metadataFiles := md }, .ok ())

/-- `pristine.Manager.hardResetToOrigin`: list the `origin` remote's
references, take the first branch named `main` or `master`, and
hard-reset the worktree to its tip. -/
def Pristine.hardResetToOrigin (st : Sys) (repo : GitRepo) : Except Err GitRepo :=
  match lookupA repo.originURL st.remotes with
  | none => .error .noOriginRemote
  | some r =>
    match r.repo.branches.find? (fun b => b.1 == gs "main" || b.1 == gs "master") with
    | none => .error .noDefaultBranch
    | some b => .ok { repo with headHash := b.2 }

/-- `pristine.Manager.Sync`. -/
def Pristine.Sync (st : Sys) (name : GoStr) : Sys × Except Err Unit :=
  match lookupA name st.pristines with
  | none => (st, .error (.pristineNotExist name))
  | some none => (st, .error (.openRepoFailed name))
  | some (some repo) =>
    if repo.bare then (st, .error .noWorktree)
    else
      match enginePull st repo with
      | .error e => (st, .error e)
      | .ok repo1 =>
        let st1 := { st with pristines := setA name (some repo1) st.pristines }
        match Pristine.hardResetToOrigin st1 repo1 with
        | .error e => (st1, .error e)
        | .ok repo2 =>
          let st2 := { st1 with pristines := setA name (some repo2) st1.pristines }
          match Pristine.extractRepoInfo st2 name with
          | .error e => (st2, .error e)
          | .ok info =>
            match Pristine.updateMetadata st2 name info with
            | .error e => (st2, .error e)
            | .ok md => ({ st2 with metadataFiles := md }, .ok ())

/-- The shared per-repository loop of `InitAll` and `SyncAll`: run the
operation on every name in order, carrying the state through, and
collect `(name, error)` for each failure — a failure never stops the
loop. -/
def bulkLoop (op : Sys → GoStr → Sys × Except Err Unit) (st : Sys) :
    List GoStr → Sys × List (GoStr × Err)
  | [] => (st, [])
  | n :: rest =>
    match op st n with
    | (s2, .ok ()) => bulkLoop op s2 rest
    | (s2, .error e) =>
      let (s3, errs) := bulkLoop op s2 rest
      (s3, (n, e) :: errs)

/-- `pristine.Manager.InitAll`. -/
def Pristine.InitAll (st : Sys) : Sys × Except Err Unit :=
  match Pristine.loadAllReposFromVault st with
  | .error e => (st, .error e)
  | .ok repos =>
    let r := bulkLoop Pristine.Init st (repos.map VaultEntry.name)
    if r.2.isEmpty then (r.1, .ok ()) else (r.1, .error (.bulkFailures r.2))

/-- `pristine.Manager.SyncAll`. -/
def Pristine.SyncAll (st : Sys) : Sys × Except Err Unit :=
  match Pristine.loadAllReposFromVault st with
  | .error e => (st, .error e)
  | .ok repos =>
    let r := bulkLoop Pristine.Sync st (repos.map VaultEntry.name)
    if r.2.isEmpty then (r.1, .ok ()) else (r.1, .error (.bulkFailures r.2))

/-- `clone.Manager.generateCloneName`:
`<pristine>-clone-<timestamp>`; the `20060102-150405` formatting of the
clock is modelled by its decimal digits. -/
def CloneM.generateCloneName (st : Sys) (pristineName : GoStr) : GoStr :=
  pristineName ++ gs "-clone-" ++ Nat.toDigits 10 st.now

/-- `clone.Manager.cloneExists` (`os.Stat` on the clone directory). -/
def CloneM.cloneExists (st : Sys) (cloneName : GoStr) : Bool :=
  (lookupA cloneName st.clones).isSome

/-- `clone.Manager.cloneRepository`: `git.PlainClone(targetPath, false,
&git.CloneOptions{URL: sourcePath, Progress: nil})` — a regular,
non-bare clone from the pristine's directory with all other options at
their zero values (no `Shared`, no reference, no branch selection).
Cloning from an empty directory fails with go-git's
"repository not found". -/
def CloneM.cloneRepository (st : Sys) (pristineName : GoStr) : Except Err GitRepo :=
  match lookupA pristineName st.pristines with
  | some (some src) => .ok (plainCloneFrom src { url := pristineName } false)
  | _ => .error (.repositoryNotFound pristineName)

/-- `clone.Manager.addCloneToMetadata`: load the owning repository's
metadata, append the clone record, save. -/
def CloneM.addCloneToMetadata (st : Sys) (repoName cloneName clonePath : GoStr) :
    Except Err (List (GoStr × RepoMetadata)) :=
  match lookupA repoName st.metadataFiles with
  | none => .error (.metadataReadFailed repoName)
  | some md =>
    .ok (setA repoName
      { md with
        clones := md.clones ++ [{ name := cloneName, path := clonePath, created := st.now }],
        lastUpdated := st.now }
      st.metadataFiles)

/-- `clone.Manager.Clone`.  The clone directory is created, populated by
`cloneRepository`, and removed again (`os.RemoveAll`) when cloning or
the metadata update fails — so the net state change of a failing run is
nil. -/
def CloneM.Clone (st : Sys) (pristineName cloneName0 : GoStr) : Sys × Except Err Unit :=
  if (lookupA pristineName st.pristines).isNone then
    (st, .error (.pristineMissing pristineName))
  else
    let cloneName := if cloneName0 = [] then CloneM.generateCloneName st pristineName
                     else cloneName0
    if CloneM.cloneExists st cloneName then (st, .error (.cloneAlreadyExists cloneName))
    else
      match CloneM.cloneRepository st pristineName with
      | .error e => (st, .error e)
      | .ok repo =>
        match CloneM.addCloneToMetadata st pristineName cloneName cloneName with
        | .error e => (st, .error e)
        | .ok md =>
          ({ st with clones := setA cloneName repo st.clones, metadataFiles := md }, .ok ())

/-- The inner loop of `clone.Manager.removeCloneFromMetadata`: walk the
metadata files in directory order, and in the first one whose clone list
mentions the name, filter that clone out and save the file; error when
no metadata mentions it. -/
def CloneM.removeCloneFromMeta (files : List (GoStr × RepoMetadata)) (cloneName : GoStr)
    (now : Nat) : Except Err (List (GoStr × RepoMetadata))
  := match files with
  | [] => .error (.cloneNotInMetadata cloneName)
  | (rn, md) :: rest =>
    let updated := md.clones.filter (fun c => decide (c.name ≠ cloneName))
    if updated.length ≠ md.clones.length then
      .ok ((rn, { md with clones := updated, lastUpdated := now }) :: rest)
    else
      match CloneM.removeCloneFromMeta rest cloneName now with
      | .error e => .error e
      | .ok rest2 => .ok ((rn, md) :: rest2)

/-- `clone.Manager.destroyClone`: remove the clone directory, then update
metadata; a metadata failure is only warned about (third component:
warnings written to stderr) and the operation still succeeds. -/
def CloneM.destroyClone (st : Sys) (cloneName : GoStr) :
    Sys × Except Err Unit × List GoStr :=
  let st1 := { st with clones := removeA cloneName st.clones }
  match CloneM.removeCloneFromMeta st1.metadataFiles cloneName st1.now with
  | .error _ => (st1, .ok (), [gs "Warning: failed to update metadata"])
  | .ok md => ({ st1 with metadataFiles := md }, .ok (), [])

/-- `clone.Manager.destroyPristine`: remove the pristine directory only. -/
def CloneM.destroyPristine (st : Sys) (pristineName : GoStr) :
    Sys × Except Err Unit × List GoStr :=
  ({ st with pristines := removeA pristineName st.pristines }, .ok (), [])

/-- `clone.Manager.Destroy`: clone names are tried before pristine
names. -/
def CloneM.Destroy (st : Sys) (target : GoStr) : Sys × Except Err Unit × List GoStr :=
  if (lookupA target st.clones).isSome then CloneM.destroyClone st target
  else if (lookupA target st.pristines).isSome then CloneM.destroyPristine st target
  else (st, .error (.targetNotFound target), [])

/-- Specification-side definition (for comparison with the code): a clone
repository shares objects with its pristine through an alternates
reference — the pointer names the pristine and the clone's own object
store holds no duplicated history. -/
def sharesObjectsViaAlternates (c : GitRepo) (pristinePath : GoStr) : Prop :=
  c.alternates = some pristinePath ∧ c.objects = []

/-- Specification-side definition (for comparison with the code): a bare
mirror of a repository — bare, all branches, full history. -/
def isBareMirror (r : GitRepo) : Prop :=
  r.bare = true ∧ r.singleBranch = false ∧ r.shallow = false

/-- Lexical (dictionary) order on strings, spec-side helper. -/
def lexLe : GoStr → GoStr → Bool
  | [], _ => true
  | _ :: _, [] => false
  | a :: as, b :: bs => if a < b then true else if a = b then lexLe as bs else false

/-- First remote name in lexical order (spec-side helper). -/
def firstLexical (names : List GoStr) : Option GoStr :=
  names.foldl
    (fun acc n =>
      match acc with
      | none => some n
      | some m => if lexLe n m then some n else some m)
    none

/-- Specification-side definition (for comparison with the code): the
default-remote selection order the specification claims for
`addFromWorkingDirectory` — the remote tracked by the current branch,
else the push-default remote, else a remote literally named `origin`,
else the first remote in lexical order. -/
def specSelectDefaultRemote (c : CurrentDirRepo) : Option GoStr :=
  match c.branchRemote with
  | some n => some n
  | none =>
    match c.pushDefault with
    | some n => some n
    | none =>
      if (lookupA (gs "origin") c.remotes).isSome then some (gs "origin")
      else firstLexical (c.remotes.map Prod.fst)

/-- Instrumented form of `bulkLoop` that keeps every per-repository
outcome (success or failure) instead of only the failures. -/
def bulkOutcomes (op : Sys → GoStr → Sys × Except Err Unit) (st : Sys) :
    List GoStr → Sys × List (GoStr × Except Err Unit)
  | [] => (st, [])
  | n :: rest =>
    let p := op st n
    let q := bulkOutcomes op p.1 rest
    (q.1, (n, p.2) :: q.2)

/-- The failures among a list of per-repository outcomes, in order. -/
def failuresOf (os : List (GoStr × Except Err Unit)) : List (GoStr × Err) :=
  os.filterMap (fun p => match p.2 with | .error e => some (p.1, e) | .ok _ => none)

/-- The aggregate report `InitAll`/`SyncAll` build from a full outcome
list: the final state, plus `ok` when no repository failed and the
joined failure list otherwise. -/
def aggregateOf (p : Sys × List (GoStr × Except Err Unit)) : Sys × Except Err Unit :=
  if (failuresOf p.2).isEmpty then (p.1, .ok ())
  else (p.1, .error (.bulkFailures (failuresOf p.2)))

/-- Sample remote repository used by the concrete runs below. -/
def sampleRemoteRepo : GitRepo :=
  { headBranch := gs "main", headHash := gs "abc123",
    branches := [(gs "main", gs "abc123")], objects := [gs "obj1", gs "obj2"] }

/-- Sample system: vault and metadata for `test-repo`, whose remote is
reachable anonymously. -/
def sampleInitSys : Sys :=
  { now := 7,
    vaultFile := some [{ name := gs "test-repo",
                         url := gs "https://github.com/user/test-repo.git", addedOn := 1 }],
    metadataFiles := [(gs "test-repo",
      Vault.freshMetadata (gs "https://github.com/user/test-repo.git") 1)],
    remotes := [(gs "https://github.com/user/test-repo.git", { repo := sampleRemoteRepo })] }

/-- Sample system: a pristine `repo` holding two objects, with its
metadata file present — the input of the clone run. -/
def samplePristineRepo : GitRepo :=
  { headBranch := gs "main", headHash := gs "h1",
    branches := [(gs "main", gs "h1")], objects := [gs "obj1", gs "obj2"] }

/-- Sample system for the clone run. -/
def sampleCloneSys : Sys :=
  { now := 9,
    vaultFile := some [{ name := gs "repo", url := gs "u.git", addedOn := 1 }],
    metadataFiles := [(gs "repo", Vault.freshMetadata (gs "u.git") 1)],
    pristines := [(gs "repo", some samplePristineRepo)] }

/-- Sample system whose remote rejects anonymous access. -/
def sampleAuthSys : Sys :=
  { now := 7,
    vaultFile := some [{ name := gs "test-repo",
                         url := gs "https://github.com/user/test-repo.git", addedOn := 1 }],
    metadataFiles := [(gs "test-repo",
      Vault.freshMetadata (gs "https://github.com/user/test-repo.git") 1)],
    pristines := [(gs "test-repo",
      some { samplePristineRepo with originURL := gs "https://github.com/user/test-repo.git" })],
    remotes := [(gs "https://github.com/user/test-repo.git",
      { repo := sampleRemoteRepo, requiresAuth := true })] }

/-- Sample working directory whose only remote is `upstream`, tracked by
the current branch and configured as push default. -/
def cwdUpstreamOnly : CurrentDirRepo :=
  { hasGitDir := true,
    remotes := [(gs "upstream", [gs "https://example.com/u.git"])],
    branchRemote := some (gs "upstream"),
    pushDefault := some (gs "upstream") }

/-- Sample system placing `cwdUpstreamOnly` in the current directory. -/
def sysUpstreamOnly : Sys := { now := 3, cwd := cwdUpstreamOnly }

/-- Sample working directory with two remotes, `origin` first. -/
def cwdTwoRemotes : CurrentDirRepo :=
  { hasGitDir := true,
    remotes := [(gs "origin", [gs "https://example.com/a.git", gs "https://example.com/b.git"]),
                (gs "backup", [gs "https://example.com/c.git"])],
    branchRemote := none, pushDefault := none }

/-- Sample vault contents for the bulk run. -/
def sampleBulkRepos : List VaultEntry :=
  [{ name := gs "r1", url := gs "https://h/r1.git", addedOn := 1 },
   { name := gs "r2", url := gs "https://h/r2.git", addedOn := 1 },
   { name := gs "r3", url := gs "https://h/r3.git", addedOn := 1 }]

/-- Sample three-repository system for the bulk run: the second
repository's remote is unreachable, the other two are fine. -/
def sampleBulkSys : Sys :=
  { now := 4,
    vaultFile := some sampleBulkRepos,
    metadataFiles := [(gs "r1", Vault.freshMetadata (gs "https://h/r1.git") 1),
                      (gs "r2", Vault.freshMetadata (gs "https://h/r2.git") 1),
                      (gs "r3", Vault.freshMetadata (gs "https://h/r3.git") 1)],
    remotes := [(gs "https://h/r1.git", { repo := sampleRemoteRepo }),
                (gs "https://h/r3.git", { repo := sampleRemoteRepo })] }

/-- Sample system holding an orphaned clone directory (present on disk,
mentioned by no metadata file). -/
def sampleOrphanSys : Sys := { now := 3, clones := [(gs "zzz", {})] }

/-- After `removeA k`, nothing is found at key `k`. -/
theorem lookupA_removeA {α : Type} (k : GoStr) (l : List (GoStr × α)) :
    lookupA k (removeA k l) = none := by
  induction l with
  | nil => rfl
  | cons e rest ih =>
    by_cases hk : e.1 = k
    · simpa [removeA, hk] using ih
    · simpa [removeA, lookupA, Ne.symm hk, hk] using ih

/-- A suffix of a suffix of `s` is a suffix of `s`: transfer
`goHasSuffix` across `List.drop`. -/
theorem goHasSuffix_of_drop (s t : GoStr) (n : Nat)
    (h : goHasSuffix (s.drop n) t = true) : goHasSuffix s t = true := by
  simp only [goHasSuffix, List.isSuffixOf_iff_suffix] at h ⊢
  exact h.trans (List.drop_suffix n s)

/-- `findRepo` over an appended entry when the scan of the front part
found nothing. -/
theorem findRepo_append (n : GoStr) (L : List VaultEntry) (e : VaultEntry)
    (h : findRepo n L = none) :
    findRepo n (L ++ [e]) = if e.name = n then some e else none := by
  induction L with
  | nil => rfl
  | cons a L ih =>
    by_cases ha : a.name = n
    · simp [findRepo, ha] at h
    · rw [List.cons_append]
      rw [findRepo, if_neg ha] at h ⊢
      exact ih h

/-- `repoExists` is the `isSome` of `findRepo`. -/
theorem repoExists_false_iff (L : List VaultEntry) (n : GoStr) :
    Vault.repoExists L n = false ↔ findRepo n L = none := by
  unfold Vault.repoExists
  cases findRepo n L <;> simp

/-- Every outcome list covers exactly the requested names, in order:
running the bulk loop attempts the operation on every repository no
matter which of them fail. -/
theorem bulkOutcomes_names (op : Sys → GoStr → Sys × Except Err Unit) :
    ∀ (names : List GoStr) (st : Sys),
      ((bulkOutcomes op st names).2.map Prod.fst) = names := by
  intro names
  induction names with
  | nil => intro st; rfl
  | cons n rest ih => intro st; simp [bulkOutcomes, ih]

/-- The production loop is the instrumented loop with the successes
forgotten: same final state, and exactly the failures kept, in order. -/
theorem bulkLoop_eq (op : Sys → GoStr → Sys × Except Err Unit) :
    ∀ (names : List GoStr) (st : Sys),
      bulkLoop op st names
        = ((bulkOutcomes op st names).1, failuresOf (bulkOutcomes op st names).2) := by
  intro names
  induction names with
  | nil => intro st; rfl
  | cons n rest ih =>
    intro st
    rcases hop : op st n with ⟨s2, r⟩
    cases r with
    | ok u =>
      cases u
      simp [bulkLoop, bulkOutcomes, failuresOf, hop, ih s2]
    | error e =>
      simp [bulkLoop, bulkOutcomes, failuresOf, hop, ih s2]

/-- `loadRepoFromVault` fails only with a read failure or a
vault-lookup failure. -/
theorem loadRepo_err (st : Sys) (name : GoStr) (e : Err)
    (h : Pristine.loadRepoFromVault st name = .error e) :
    e = .vaultReadFailed ∨ e = .notFoundInVault name := by
  unfold Pristine.loadRepoFromVault at h
  split at h
  · injection h with h2; exact Or.inl h2.symm
  · split at h
    · exact absurd h (by simp)
    · injection h with h2; exact Or.inr h2.symm

/-- `enginePlainClone` fails only with a missing remote or an
authentication rejection. -/
theorem enginePlainClone_err (st : Sys) (bare : Bool) (opts : CloneOptions) (e : Err)
    (h : enginePlainClone st bare opts = .error e) :
    e = .repositoryNotFound opts.url ∨ e = .authenticationRequired := by
  unfold enginePlainClone at h
  split at h
  · injection h with h2; exact Or.inl h2.symm
  · split at h
    · injection h with h2; exact Or.inr h2.symm
    · exact absurd h (by simp)

/-- `cloneAsReference` fails only with a missing remote or an
authentication rejection. -/
theorem cloneAsRef_err (st : Sys) (url name : GoStr) (st1 : Sys) (e : Err)
    (h : Pristine.cloneAsReference st url name = (st1, .error e)) :
    (∃ u, e = .repositoryNotFound u) ∨ e = .authenticationRequired := by
  simp only [Pristine.cloneAsReference] at h
  split at h
  · rename_i e2 heq
    simp at h
    rcases enginePlainClone_err _ _ _ _ heq with h3 | h3
    · exact Or.inl ⟨_, h.2.symm.trans h3⟩
    · exact Or.inr (h.2.symm.trans h3)
  · exact absurd h (by simp)

/-- `extractRepoInfo` fails only with an open failure. -/
theorem extractInfo_err (st : Sys) (name : GoStr) (e : Err)
    (h : Pristine.extractRepoInfo st name = .error e) : e = .openRepoFailed name := by
  unfold Pristine.extractRepoInfo at h
  split at h
  · exact absurd h (by simp)
  · injection h with h2; exact h2.symm

/-- `Pristine.updateMetadata` fails only with a metadata read failure. -/
theorem updateMeta_err (st : Sys) (name : GoStr) (info : RepoInfo) (e : Err)
    (h : Pristine.updateMetadata st name info = .error e) : e = .metadataReadFailed name := by
  unfold Pristine.updateMetadata at h
  split at h
  · injection h with h2; exact h2.symm
  · exact absurd h (by simp)

/-- When no pristine directory is present for `name`, `Init` can fail in
several ways but never with the already-exists error: a repeated `init`
after `destroy` is not rejected for existence. -/
theorem init_no_alreadyExists (st : Sys) (name : GoStr)
    (hp : (lookupA name st.pristines).isSome = false) (st2 : Sys) (res : Except Err Unit)
    (h : Pristine.Init st name = (st2, res)) (m : GoStr) :
    res ≠ .error (.pristineAlreadyExists m) := by
  intro hres
  subst hres
  unfold Pristine.Init at h
  cases hload : Pristine.loadRepoFromVault st name with
  | error e =>
    rw [hload] at h
    simp at h
    rcases loadRepo_err st name e hload with h3 | h3 <;> rw [h3] at h <;>
      exact Err.noConfusion h.2
  | ok entry =>
    rw [hload] at h
    simp only [hp, Bool.false_eq_true, if_false] at h
    rcases hc : Pristine.cloneAsReference st entry.url name with ⟨stc, rc⟩
    rw [hc] at h
    cases rc with
    | error e =>
      simp at h
      rcases cloneAsRef_err st entry.url name stc e hc with ⟨u, h3⟩ | h3 <;> rw [h3] at h <;>
        exact Err.noConfusion h.2
    | ok u =>
      cases u
      simp only [] at h
      cases hx : Pristine.extractRepoInfo stc name with
      | error e =>
        rw [hx] at h
        simp at h
        rw [extractInfo_err stc name e hx] at h
        exact Err.noConfusion h.2
      | ok info =>
        rw [hx] at h
        simp only [] at h
        cases hm : Pristine.updateMetadata stc name info with
        | error e =>
          rw [hm] at h
          simp at h
          rw [updateMeta_err stc name info e hm] at h
          exact Err.noConfusion h.2
        | ok md =>
          rw [hm] at h
          exact absurd h (by simp)

/-- C1: the claim says every clone created from a pristine has an object
store linked to the pristine's through an alternates reference instead
of a duplicated copy of the history.  Evaluating the embedded clone
operation (`cloneRepository` = `git.PlainClone` from the pristine path
with default options) on a pristine holding two objects shows the
created clone carries no alternates pointer and a full copy of the
pristine's objects — the object-sharing property fails on the code. -/
theorem C1_clone_duplicates_history :
    (CloneM.Clone sampleCloneSys (gs "repo") (gs "c1")).2 = .ok ()
    ∧ ∃ c, lookupA (gs "c1") (CloneM.Clone sampleCloneSys (gs "repo") (gs "c1")).1.clones = some c
        ∧ c.alternates = none
        ∧ c.objects = samplePristineRepo.objects
        ∧ ¬ sharesObjectsViaAlternates c (gs "repo") := by
  refine ⟨rfl, ⟨plainCloneFrom samplePristineRepo { url := gs "repo" } false,
    rfl, rfl, rfl, ?_⟩⟩
  exact fun hshare => Option.noConfusion hshare.1

/-- C2: the claim says `init` creates a bare mirror; the embedded run of
`Init` (through `cloneAsReference`, which calls `git.PlainClone(path,
false, …)` with `SingleBranch: true, Depth: 1`) produces a non-bare,
shallow, single-branch checkout — not a bare mirror — while the
already-exists guard and the branch/hash metadata recording do behave
as claimed. -/
theorem C2_init_creates_nonbare_shallow_clone :
    (Pristine.Init sampleInitSys (gs "test-repo")).2 = .ok ()
    ∧ (∃ p, lookupA (gs "test-repo") (Pristine.Init sampleInitSys (gs "test-repo")).1.pristines
          = some (some p)
        ∧ p.bare = false ∧ p.shallow = true ∧ p.singleBranch = true
        ∧ ¬ isBareMirror p)
    ∧ (∃ md, lookupA (gs "test-repo") (Pristine.Init sampleInitSys (gs "test-repo")).1.metadataFiles
          = some md
        ∧ md.defaultBranch = sampleRemoteRepo.headBranch
        ∧ md.currentBranchHash = sampleRemoteRepo.headHash)
    ∧ (Pristine.Init (Pristine.Init sampleInitSys (gs "test-repo")).1 (gs "test-repo")).2
        = .error (.pristineAlreadyExists (gs "test-repo")) := by
  refine ⟨rfl, ⟨_, rfl, rfl, rfl, rfl, fun hb => Bool.noConfusion hb.1⟩,
    ⟨_, rfl, rfl, rfl⟩, rfl⟩

/-- C3: the claim says every network operation owns a bounded credential
attempt counter and fails with an authentication error only after the
maximum number of credential-callback invocations.  The embedded code
installs no credential callback at all: the clone options built by
`cloneAsReference` and the zero `PullOptions{}` of `Sync` carry no
`Auth` method, so against a remote that rejects anonymous access both
operations fail on the first attempt with the engine's authentication
error — no counter, no bounded retry. -/
theorem C3_no_credential_retry_protocol :
    (refCloneOptions (gs "https://github.com/user/test-repo.git")).auth = none
    ∧ (Pristine.Init { sampleAuthSys with pristines := [] } (gs "test-repo")).2
        = .error .authenticationRequired
    ∧ (Pristine.Sync sampleAuthSys (gs "test-repo")).2 = .error .authenticationRequired := by
  exact ⟨rfl, rfl, rfl⟩

/-- C7: when destroying an existing clone, a failure of the metadata
update that follows the successful directory removal is reported only
as a warning: the operation still returns success, the clone directory
is gone, and the metadata files are left as they were. -/
theorem C7_destroy_clone_metadata_failure_is_warning (st : Sys) (name : GoStr) (e : Err)
    (h : CloneM.removeCloneFromMeta st.metadataFiles name st.now = .error e) :
    CloneM.destroyClone st name
      = ({ st with clones := removeA name st.clones }, .ok (),
         [gs "Warning: failed to update metadata"]) := by
  simp only [CloneM.destroyClone]
  rw [h]

/-- Witness for C7: destroying the orphaned clone `zzz` (present on disk,
absent from all metadata) succeeds with the metadata warning. -/
theorem C7_witness :
    CloneM.destroyClone sampleOrphanSys (gs "zzz")
      = ({ sampleOrphanSys with clones := removeA (gs "zzz") sampleOrphanSys.clones },
         .ok (), [gs "Warning: failed to update metadata"]) :=
  C7_destroy_clone_metadata_failure_is_warning sampleOrphanSys (gs "zzz")
    (.cloneNotInMetadata (gs "zzz")) rfl

/-- C8: destroying a pristine removes only the pristine directory — the
vault index file, every metadata file and every clone directory are
unchanged — and a repeated `init` afterwards is never rejected with the
already-exists error. -/
theorem C8_destroy_pristine_frame (st : Sys) (name : GoStr) :
    (CloneM.destroyPristine st name).2.1 = .ok ()
    ∧ (CloneM.destroyPristine st name).1.vaultFile = st.vaultFile
    ∧ (CloneM.destroyPristine st name).1.metadataFiles = st.metadataFiles
    ∧ (CloneM.destroyPristine st name).1.clones = st.clones
    ∧ lookupA name (CloneM.destroyPristine st name).1.pristines = none
    ∧ ∀ st2 res, Pristine.Init (CloneM.destroyPristine st name).1 name = (st2, res) →
        res ≠ .error (.pristineAlreadyExists name) := by
  refine ⟨rfl, rfl, rfl, rfl, lookupA_removeA name st.pristines, ?_⟩
  intro st2 res h
  refine init_no_alreadyExists _ name ?_ st2 res h name
  rw [show (CloneM.destroyPristine st name).1.pristines = removeA name st.pristines from rfl,
      lookupA_removeA]
  rfl

/-- Witness for C8: destroying the pristine `repo` of the sample system
leaves no pristine entry, and a repeated `Init` is not rejected as
already existing. -/
theorem C8_witness :
    lookupA (gs "repo") (CloneM.destroyPristine sampleCloneSys (gs "repo")).1.pristines = none
    ∧ (Pristine.Init (CloneM.destroyPristine sampleCloneSys (gs "repo")).1 (gs "repo")).2
        ≠ .error (.pristineAlreadyExists (gs "repo")) :=
  ⟨(C8_destroy_pristine_frame sampleCloneSys (gs "repo")).2.2.2.2.1,
   (C8_destroy_pristine_frame sampleCloneSys (gs "repo")).2.2.2.2.2 _ _ rfl⟩

/-- C10: when the vault index file is absent, every vault read treats the
vault as empty instead of failing: `List` returns an empty list with no
error, `Get` fails with the not-found error for any name, and the first
`Add` (of an input passing validation and name extraction) succeeds. -/
theorem C10_missing_vault_reads_as_empty (st : Sys) (h : st.vaultFile = none) :
    Vault.listRepos st = .ok []
    ∧ (∀ name, Vault.Get st name = .error (.notFoundInVault name))
    ∧ (∀ url v r, Vault.validateURLOrPath st url = .ok v → Vault.extractRepoName v = .ok r →
        Vault.Add st url
          = (Vault.createMetadata
               (Vault.saveVault st [{ name := r, url := v, addedOn := st.now }]) r v,
             .ok r)) := by
  have hl : Vault.loadVault st = [] := by rw [Vault.loadVault, h]
  refine ⟨?_, ?_, ?_⟩
  · rw [Vault.listRepos, hl]
  · intro name
    rw [Vault.Get, hl]
    rfl
  · intro url v r hv hr
    simp only [Vault.Add, hv, hr, hl]
    rfl

/-- Witness for C10: the sample system has no vault file; its reads come
back empty and the first add succeeds resolving `test-repo`. -/
theorem C10_witness :
    Vault.listRepos sampleOrphanSys = .ok []
    ∧ Vault.Get sampleOrphanSys (gs "x") = .error (.notFoundInVault (gs "x"))
    ∧ Vault.Add sampleOrphanSys (gs "https://github.com/user/test-repo.git")
        = (Vault.createMetadata
             (Vault.saveVault sampleOrphanSys
               [{ name := gs "test-repo", url := gs "https://github.com/user/test-repo.git",
                  addedOn := sampleOrphanSys.now }])
             (gs "test-repo") (gs "https://github.com/user/test-repo.git"),
           .ok (gs "test-repo")) :=
  ⟨(C10_missing_vault_reads_as_empty sampleOrphanSys rfl).1,
   (C10_missing_vault_reads_as_empty sampleOrphanSys rfl).2.1 (gs "x"),
   (C10_missing_vault_reads_as_empty sampleOrphanSys rfl).2.2
     (gs "https://github.com/user/test-repo.git")
     (gs "https://github.com/user/test-repo.git") (gs "test-repo") rfl rfl⟩

/-- C9: `add` rejects every `http://`, `https://` or `git@` URL that does
not end in `.git`, and every local path that is missing or lacks a
`.git` subdirectory — and in each case validation fails before any
vault entry or metadata file is created: the state is returned
unchanged. -/
theorem C9_validation_rejects_before_mutation (st : Sys) (s : GoStr) :
    (isURLShaped s = true → goHasSuffix s (gs ".git") = false →
       Vault.Add st s = (st, .error .invalidGitURL))
    ∧ (s ≠ [] → isURLShaped s = false → lookupA s st.localDirs = none →
       Vault.Add st s = (st, .error (.pathNotExist s)))
    ∧ (s ≠ [] → isURLShaped s = false → lookupA s st.localDirs = some false →
       Vault.Add st s = (st, .error (.pathNotGitRepo s))) := by
  refine ⟨?_, ?_, ?_⟩
  · intro hu hs
    have hne : s ≠ [] := by
      intro h0
      subst h0
      exact absurd hu (by decide)
    have h1 : ∀ n, goHasSuffix (s.drop n) (gs ".git") = false := by
      intro n
      cases hsd : goHasSuffix (s.drop n) (gs ".git") with
      | false => rfl
      | true =>
        have := goHasSuffix_of_drop s (gs ".git") n hsd
        rw [this] at hs
        exact Bool.noConfusion hs
    have hpat : gitURLPatternMatch s = false := by
      unfold gitURLPatternMatch matchesPrefixDotGit
      simp [h1]
    simp [Vault.Add, Vault.validateURLOrPath, Vault.validateURL, hne, hu, hpat]
  · intro hne hiu hld
    simp [Vault.Add, Vault.validateURLOrPath, Vault.validateLocalPath, hne, hiu, hld]
  · intro hne hiu hld
    simp [Vault.Add, Vault.validateURLOrPath, Vault.validateLocalPath, hne, hiu, hld]

/-- Witness for C9: a `.git`-less https URL, a missing local path, and a
local directory without a `.git` subdirectory are all rejected leaving
the sample state unchanged. -/
theorem C9_witness :
    Vault.Add sampleOrphanSys (gs "https://github.com/user/repo")
      = (sampleOrphanSys, .error .invalidGitURL)
    ∧ Vault.Add sampleOrphanSys (gs "/tmp/nowhere")
      = (sampleOrphanSys, .error (.pathNotExist (gs "/tmp/nowhere")))
    ∧ Vault.Add { sampleOrphanSys with localDirs := [(gs "/tmp/plain", false)] }
        (gs "/tmp/plain")
      = ({ sampleOrphanSys with localDirs := [(gs "/tmp/plain", false)] },
         .error (.pathNotGitRepo (gs "/tmp/plain"))) :=
  ⟨(C9_validation_rejects_before_mutation sampleOrphanSys
      (gs "https://github.com/user/repo")).1 (by decide) (by decide),
   (C9_validation_rejects_before_mutation sampleOrphanSys (gs "/tmp/nowhere")).2.1
      (by decide) (by decide) rfl,
   (C9_validation_rejects_before_mutation
      { sampleOrphanSys with localDirs := [(gs "/tmp/plain", false)] } (gs "/tmp/plain")).2.2
      (by decide) (by decide) rfl⟩

/-- C5: whenever `Add` succeeds resolving name `r`, that name was not
previously in the vault, `Get r` on the resulting state returns exactly
the entry that was added (same name and validated URL) through the
persisted index, and repeating the same `Add` fails with the
duplicate-repository error leaving the state unchanged. -/
theorem C5_add_get_roundtrip (st : Sys) (url : GoStr) (st2 : Sys) (r : GoStr)
    (h : Vault.Add st url = (st2, .ok r)) :
    Vault.repoExists (Vault.loadVault st) r = false
    ∧ ∃ v, Vault.validateURLOrPath st url = .ok v
        ∧ Vault.Get st2 r = .ok { name := r, url := v, addedOn := st.now }
        ∧ Vault.Add st2 url = (st2, .error (.duplicateRepository r)) := by
  unfold Vault.Add at h
  cases hv : Vault.validateURLOrPath st url with
  | error e => rw [hv] at h; exact absurd h (by simp)
  | ok v =>
    rw [hv] at h
    simp only [] at h
    cases hn : Vault.extractRepoName v with
    | error e => rw [hn] at h; exact absurd h (by simp)
    | ok name =>
      rw [hn] at h
      simp only [] at h
      cases hex : Vault.repoExists (Vault.loadVault st) name with
      | true => simp [hex] at h
      | false =>
        simp only [hex, Bool.false_eq_true, if_false] at h
        simp only [Prod.mk.injEq, Except.ok.injEq] at h
        obtain ⟨hst, hr⟩ := h
        subst hr
        subst hst
        have hfind : findRepo name (Vault.loadVault st) = none :=
          (repoExists_false_iff (Vault.loadVault st) name).mp hex
        have hload2 :
            Vault.loadVault
              (Vault.createMetadata
                (Vault.saveVault st
                  (Vault.loadVault st ++ [{ name := name, url := v, addedOn := st.now }]))
                name v)
            = Vault.loadVault st ++ [{ name := name, url := v, addedOn := st.now }] := rfl
        have hfind2 :
            findRepo name (Vault.loadVault st ++ [{ name := name, url := v, addedOn := st.now }])
            = some { name := name, url := v, addedOn := st.now } := by
          rw [findRepo_append name _ _ hfind]
          simp
        refine ⟨hex, v, rfl, ?_, ?_⟩
        · rw [Vault.Get, hload2, hfind2]
        · have hv2 :
              Vault.validateURLOrPath
                (Vault.createMetadata
                  (Vault.saveVault st
                    (Vault.loadVault st ++ [{ name := name, url := v, addedOn := st.now }]))
                  name v) url
              = .ok v := hv
          simp only [Vault.Add, hv2, hn, hload2, Vault.repoExists, hfind2, Option.isSome,
            if_true]

/-- Witness for C5: adding the sample GitHub URL to the empty vault
resolves `test-repo`; the round trip and the duplicate rejection follow
from the main theorem at this concrete input. -/
theorem C5_witness :
    Vault.repoExists (Vault.loadVault sampleOrphanSys) (gs "test-repo") = false
    ∧ ∃ v, Vault.validateURLOrPath sampleOrphanSys
            (gs "https://github.com/user/test-repo.git") = .ok v
        ∧ Vault.Get (Vault.Add sampleOrphanSys (gs "https://github.com/user/test-repo.git")).1
              (gs "test-repo")
            = .ok { name := gs "test-repo", url := v, addedOn := sampleOrphanSys.now }
        ∧ Vault.Add (Vault.Add sampleOrphanSys (gs "https://github.com/user/test-repo.git")).1
              (gs "https://github.com/user/test-repo.git")
            = ((Vault.Add sampleOrphanSys (gs "https://github.com/user/test-repo.git")).1,
               .error (.duplicateRepository (gs "test-repo"))) :=
  C5_add_get_roundtrip sampleOrphanSys (gs "https://github.com/user/test-repo.git")
    (Vault.Add sampleOrphanSys (gs "https://github.com/user/test-repo.git")).1
    (gs "test-repo") rfl

/-- Counterexample for C6: in a working directory whose only remote is
`upstream` — tracked by the current branch and configured as push
default — the specification's selection order picks `upstream`, but the
code fails with the no-origin error: the claimed priority order is not
what the code implements. -/
theorem C6_counterexample :
    specSelectDefaultRemote cwdUpstreamOnly = some (gs "upstream")
    ∧ (Vault.AddFromCurrentDir sysUpstreamOnly).2 = .error .noOriginRemote :=
  ⟨rfl, rfl⟩

/-- C6 (amended): `AddFromCurrentDir` consults only the remote literally
named `origin` — the branch-tracked remote and the push-default remote
play no role — failing when no `origin` exists, and when `origin` has
several URLs only the first is passed on to `Add` (a vault entry holds
a single URL). -/
theorem C6_add_uses_origin_only (c : CurrentDirRepo) (st : Sys) :
    (∀ br pd, Vault.getOriginRemote { c with branchRemote := br, pushDefault := pd }
        = Vault.getOriginRemote c)
    ∧ (c.hasGitDir = true → lookupA (gs "origin") c.remotes = none →
        Vault.getOriginRemote c = .error .noOriginRemote)
    ∧ (∀ u us, c.hasGitDir = true → lookupA (gs "origin") c.remotes = some (u :: us) →
        Vault.getOriginRemote c = .ok u
        ∧ (st.cwd = c → Vault.AddFromCurrentDir st = Vault.Add st u)) := by
  refine ⟨fun br pd => rfl, ?_, ?_⟩
  · intro hg ho
    simp [Vault.getOriginRemote, hg, ho]
  · intro u us hg ho
    constructor
    · simp [Vault.getOriginRemote, hg, ho]
    · intro hc
      subst hc
      simp [Vault.AddFromCurrentDir, Vault.getOriginRemote, hg, ho]

/-- Witness for C6 (amended): with remotes `origin` (two URLs) and
`backup`, the first URL of `origin` is selected and handed to `Add`. -/
theorem C6_witness :
    Vault.getOriginRemote cwdTwoRemotes = .ok (gs "https://example.com/a.git")
    ∧ Vault.AddFromCurrentDir { now := 3, cwd := cwdTwoRemotes }
        = Vault.Add { now := 3, cwd := cwdTwoRemotes } (gs "https://example.com/a.git") :=
  have h := (C6_add_uses_origin_only cwdTwoRemotes { now := 3, cwd := cwdTwoRemotes }).2.2
    (gs "https://example.com/a.git") [gs "https://example.com/b.git"] rfl rfl
  ⟨h.1, h.2 rfl⟩

/-- C4: the bulk operations attempt the per-repository operation on every
repository in the vault, in order, no matter which of them fail, and
return one aggregate report — final state plus the full failure list —
only after every repository has been processed. -/
theorem C4_bulk_attempts_all (st : Sys) (repos : List VaultEntry)
    (h : st.vaultFile = some repos) :
    ((bulkOutcomes Pristine.Init st (repos.map VaultEntry.name)).2.map Prod.fst
        = repos.map VaultEntry.name
      ∧ Pristine.InitAll st
        = aggregateOf (bulkOutcomes Pristine.Init st (repos.map VaultEntry.name)))
    ∧ ((bulkOutcomes Pristine.Sync st (repos.map VaultEntry.name)).2.map Prod.fst
        = repos.map VaultEntry.name
      ∧ Pristine.SyncAll st
        = aggregateOf (bulkOutcomes Pristine.Sync st (repos.map VaultEntry.name))) := by
  have hload : Pristine.loadAllReposFromVault st = .ok repos := by
    unfold Pristine.loadAllReposFromVault
    rw [h]
  refine ⟨⟨bulkOutcomes_names _ _ _, ?_⟩, ⟨bulkOutcomes_names _ _ _, ?_⟩⟩
  · simp only [Pristine.InitAll, hload, bulkLoop_eq]
    rfl
  · simp only [Pristine.SyncAll, hload, bulkLoop_eq]
    rfl

/-- Witness for C4: the three-repository sample, in which the second
repository's remote is unreachable, satisfies the bulk contract. -/
theorem C4_witness :
    Pristine.InitAll sampleBulkSys
      = aggregateOf (bulkOutcomes Pristine.Init sampleBulkSys
          (sampleBulkRepos.map VaultEntry.name))
    ∧ Pristine.SyncAll sampleBulkSys
      = aggregateOf (bulkOutcomes Pristine.Sync sampleBulkSys
          (sampleBulkRepos.map VaultEntry.name)) :=
  ⟨((C4_bulk_attempts_all sampleBulkSys sampleBulkRepos rfl).1).2,
   ((C4_bulk_attempts_all sampleBulkSys sampleBulkRepos rfl).2).2⟩

/-- Concrete evaluation backing C4's scenario: over the three sample
repositories the bulk init yields success, failure, success — the
failure of the second repository does not stop the third, and the
aggregate keeps exactly the one failure. -/
theorem bulk_sample_partial_failure :
    (bulkOutcomes Pristine.Init sampleBulkSys (sampleBulkRepos.map VaultEntry.name)).2.map
        (fun p => match p.2 with | .ok _ => true | .error _ => false)
      = [true, false, true]
    ∧ failuresOf (bulkOutcomes Pristine.Init sampleBulkSys
        (sampleBulkRepos.map VaultEntry.name)).2
      = [(gs "r2", .repositoryNotFound (gs "https://h/r2.git"))] :=
  ⟨rfl, rfl⟩
